import Mathlib

/-
  Verification development for the per-peer route-processing engine
  (pctrl/peer.py, class BGPPeer) of the sdx-parallel controller.

  The Python source is shallowly embedded: each method of BGPPeer becomes a
  Lean function on an explicit state of the three RIB tables.  Operations that
  acquire locks additionally return the list of lock-registry keys they
  acquired, so that the locking discipline is visible in the embedding.
  Fallible Python code (dict access that can raise KeyError, attribute access
  on None or on a function object that can raise AttributeError) is embedded
  in `Except String`.

  The collaborators `bgp_route.BGPRoute` and `rib.LocalRIB` are not part of
  the given source tree; they are modelled from the spec (each such
  definition carries a doc comment starting with "Modelled from the spec:").
-/

namespace SDX

/-- Modelled from the spec: the Route entity of bgp_route.py (file absent from
the source tree).  Fields follow §3 of the spec and the constructor call in
BGPPeer.update: prefix, neighbor, next-hop, origin, AS-path (a sequence of
segments, each a sequence of AS numbers), communities (already serialized to a
string by the translator), MED (optional integer; the translator leaves it
absent when the attribute is missing), atomic-aggregate (optional boolean).
The field `pfx` models the Python attribute `prefix` (a Lean keyword). -/
structure BGPRoute where
  pfx : String
  neighbor : String
  next_hop : String
  origin : String
  as_path : List (List Nat)
  communities : String
  med : Option Int
  atomic_aggregate : Option Bool
deriving DecidableEq

/-- Modelled from the spec: preference rank of the BGP origin code
(igp preferred over egp, egp over incomplete); any other value, including the
translator's empty-string default, ranks last. Lower rank is preferred. -/
def originRank (o : String) : Int :=
  if o = "igp" then 0 else if o = "egp" then 1 else if o = "incomplete" then 2 else 3

/-- Numeric code of a string, used for the deterministic neighbor-IP
tie-break: the base-2097152 number whose digits are the character codes
shifted by one (2097152 exceeds every valid character code, so the encoding
is injective and string comparison order is irrelevant to the claims). -/
def strCode (s : String) : Nat :=
  s.data.foldl (fun acc c => acc * 2097152 + (c.toNat + 1)) 0

/-- Modelled from the spec: the comparison key of a route.  The spec (§3)
orders routes through origin code, AS-path length and MED (each: lower is
preferred), with a final deterministic tie-break on the neighbor IP.  The key
is built so that a strictly preferred route has a strictly larger key in the
lexicographic order. An absent MED compares as 0. -/
def routeKey (r : BGPRoute) : Int ×ₗ (Int ×ₗ (Int ×ₗ Nat)) :=
  toLex (- originRank r.origin,
    toLex (- (r.as_path.length : Int),
      toLex (- (r.med.getD 0), strCode r.neighbor)))

/-- Modelled from the spec: the three-way comparison of two routes
(`__lt__`/`__gt__` of bgp_route.py): `.gt` means the first route is strictly
preferred. -/
def routeCmp (a b : BGPRoute) : Ordering :=
  if routeKey a < routeKey b then Ordering.lt
  else if routeKey b < routeKey a then Ordering.gt
  else Ordering.eq

/-- The strict "is preferred over" relation of routes (Python `>`). -/
def routeGTb (a b : BGPRoute) : Bool := routeCmp a b = Ordering.gt

/-- The strict "is less preferred than" relation of routes (Python `<`). -/
def routeLTb (a b : BGPRoute) : Bool := routeCmp a b = Ordering.lt

/-- The non-strict descending-sort relation used to model Python
`list.sort(reverse=True)` over routes: `a` may stay in front of `b`. -/
def routeGe (a b : BGPRoute) : Prop := routeCmp a b ≠ Ordering.lt

instance : DecidableRel routeGe := fun a b => by
  unfold routeGe; infer_instance

/-- Model of `routes.sort(reverse=True)` in BGPPeer: sort the list so that
more-preferred routes come first. -/
def sortDesc (l : List BGPRoute) : List BGPRoute :=
  List.insertionSort routeGe l

/-- The three tables BGPPeer configures in its LocalRIB (`__init__`):
`input` with primary key (prefix, neighbor), `local` and `output` with
primary key (prefix).  `localT` stands for the table named "local". -/
inductive TableName where
  | input
  | localT
  | output
deriving DecidableEq

/-- The state of the peer's LocalRIB: the rows of the three tables. -/
structure RIBState where
  inp : List BGPRoute
  loc : List BGPRoute
  out : List BGPRoute
deriving DecidableEq

/-- The peer's tables at start-up: all empty. -/
def emptyRIB : RIBState := ⟨[], [], []⟩

/-- The rows of one table. -/
def RIBState.table (st : RIBState) : TableName → List BGPRoute
  | TableName.input => st.inp
  | TableName.localT => st.loc
  | TableName.output => st.out

/-- Replace the rows of one table. -/
def RIBState.setTable (st : RIBState) : TableName → List BGPRoute → RIBState
  | TableName.input, l => { st with inp := l }
  | TableName.localT, l => { st with loc := l }
  | TableName.output, l => { st with out := l }

/-- A key filter as passed to LocalRIB.get/delete through the kwargs of
BGPPeer's accessors: an optional prefix constraint and an optional neighbor
constraint (empty filter = match everything, as used by delete_all_routes). -/
structure Filter where
  pfx : Option String
  neighbor : Option String
deriving DecidableEq

/-- The empty filter (no kwargs). -/
def noFilter : Filter := ⟨none, none⟩

/-- Filter on a prefix only. -/
def pfxFilter (p : String) : Filter := ⟨some p, none⟩

/-- Filter on a neighbor only. -/
def nbrFilter (n : String) : Filter := ⟨none, some n⟩

/-- Filter on a (prefix, neighbor) pair. -/
def pfxNbrFilter (p n : String) : Filter := ⟨some p, some n⟩

/-- Whether a row matches a key filter. -/
def Filter.matches (f : Filter) (r : BGPRoute) : Bool :=
  (match f.pfx with
   | none => true
   | some p => r.pfx = p)
  &&
  (match f.neighbor with
   | none => true
   | some n => r.neighbor = n)

/-- Modelled from the spec: two rows collide on a table's primary key
(§3: input is keyed by (prefix, neighbor); local and output by (prefix)). -/
def pkEq (t : TableName) (a b : BGPRoute) : Bool :=
  match t with
  | TableName.input => a.pfx = b.pfx && a.neighbor = b.neighbor
  | TableName.localT => a.pfx = b.pfx
  | TableName.output => a.pfx = b.pfx

/-- Modelled from the spec: LocalRIB.add — upsert: any row with the same
primary key is replaced, keeping the invariant of at most one row per
primary key per table (§3). -/
def ribAdd (st : RIBState) (t : TableName) (r : BGPRoute) : RIBState :=
  st.setTable t ((st.table t).filter (fun x => !(pkEq t x r)) ++ [r])

/-- Modelled from the spec: LocalRIB.get — all rows matching the filter. -/
def ribGet (st : RIBState) (t : TableName) (f : Filter) : List BGPRoute :=
  (st.table t).filter (fun r => f.matches r)

/-- Modelled from the spec: LocalRIB.delete — drop every row matching the
filter (with the empty filter this empties the table). -/
def ribDelete (st : RIBState) (t : TableName) (f : Filter) : RIBState :=
  st.setTable t ((st.table t).filter (fun r => !(f.matches r)))

/-- Modelled from the spec: LocalRIB.commit — makes staged mutations durable;
the visible table contents are unchanged, so on this state it is the
identity. -/
def ribCommit (st : RIBState) : RIBState := st

/-- The lock-registry key used by BGPPeer.get_routes / delete_route:
the prefix from the kwargs if one was given, else the reserved key
"global". -/
def lockKey (f : Filter) : String := f.pfx.getD "global"

/-- Result of one BGPPeer RIB accessor: its return value, the state of the
tables afterwards, and the list of lock-registry keys it acquired
(each `with self.get_lock(k):` block contributes its key `k`). -/
structure OpResult (α : Type) where
  ret : α
  st : RIBState
  locks : List String
deriving DecidableEq

/-- BGPPeer.add_route: under the lock of the route's prefix, add the row and
commit. -/
def add_route (st : RIBState) (t : TableName) (r : BGPRoute) : OpResult Unit :=
  ⟨(), ribCommit (ribAdd st t r), [r.pfx]⟩

/-- BGPPeer.get_routes with all_entries=True: under the lock of the kwargs
prefix (or "global"), return every matching row. -/
def get_routes_all (st : RIBState) (t : TableName) (f : Filter) :
    OpResult (List BGPRoute) :=
  ⟨ribGet st t f, st, [lockKey f]⟩

/-- BGPPeer.get_routes with all_entries=False: under the lock of the kwargs
prefix (or "global"), return the matching row if any (the callers always
pass a full primary key, so at most one row matches). -/
def get_routes_one (st : RIBState) (t : TableName) (f : Filter) :
    OpResult (Option BGPRoute) :=
  ⟨(ribGet st t f).head?, st, [lockKey f]⟩

/-- BGPPeer.update_route: under the lock of the route's prefix, add (upsert)
the row, without commit. -/
def update_route (st : RIBState) (t : TableName) (r : BGPRoute) : OpResult Unit :=
  ⟨(), ribAdd st t r, [r.pfx]⟩

/-- BGPPeer.delete_route: under the lock of the kwargs prefix (or "global"),
delete the matching rows and commit. -/
def delete_route (st : RIBState) (t : TableName) (f : Filter) : OpResult Unit :=
  ⟨(), ribCommit (ribDelete st t f), [lockKey f]⟩

/-- BGPPeer.delete_all_routes: delete every row of the table and commit.
The source acquires no lock here (there is no `with self.get_lock(...)`
around the delete), hence the empty lock trace. -/
def delete_all_routes (st : RIBState) (t : TableName) : OpResult Unit :=
  ⟨(), ribCommit (ribDelete st t noFilter), []⟩

/-- BGPPeer.process_notification: a bare "shutdown" notification clears the
three tables (no lock is acquired anywhere on this path). -/
def process_notification (st : RIBState) (notif : String) : RIBState :=
  if notif = "shutdown" then
    (delete_all_routes
      (delete_all_routes
        (delete_all_routes st TableName.input).st TableName.localT).st
      TableName.output).st
  else st

/-- The `attribute` object of an inbound update payload: every field is
optional, mirroring the `'x' in attribute` presence checks of
BGPPeer.update. -/
structure UpdateAttribute where
  origin : Option String
  as_path : Option (List (List Nat))
  med : Option Int
  community : Option (List (List Nat))
  atomic_aggregate : Option Bool
deriving DecidableEq

/-- The `update` object of an inbound event.  `announce`: outer `none` means
no "announce" key; `some none` means "announce" present without an
"ipv4 unicast" entry; `some (some m)` carries the map next-hop ↦ announced
prefixes (dict iteration order modelled by list order).  `withdraw` likewise
wraps the withdrawn prefix set. -/
structure UpdateMsg where
  attr : Option UpdateAttribute
  announce : Option (Option (List (String × List String)))
  withdraw : Option (Option (List String))
deriving DecidableEq

/-- An inbound neighbor event, the argument of BGPPeer.update.
`state`: the optional "state" field ("down" signals the session ending).
`message`: `none` models a neighbor object without a "message" key — the
source reads route["neighbor"]["message"] unconditionally, which then raises
KeyError; `some none` models a message without an "update" key; `some (some
u)` carries the update payload. -/
structure NeighborEvent where
  ip : String
  state : Option String
  message : Option (Option UpdateMsg)
deriving DecidableEq

/-- The payload stored under the "announce" key of an emitted change dict.
BGPPeer.update line 98 appends `{'announce': announce_route}` where
`announce_route` resolves to the module-level helper function
`announce_route` (the constructed route is bound to `announced_route`);
`announceRouteFn` models that function object. -/
inductive ChangePayload where
  | route (r : BGPRoute)
  | announceRouteFn
deriving DecidableEq

/-- A change event as emitted by BGPPeer.update and consumed by
decision_process: a dict with an "announce" or a "withdraw" key. -/
inductive Change where
  | announce (p : ChangePayload)
  | withdraw (r : BGPRoute)
deriving DecidableEq

/-- The communities serialization of BGPPeer.update lines 76-79: join each
community (asn, value, ...) with ":" and terminate it with a space. -/
def communityStr (community : List (List Nat)) : String :=
  community.foldl (fun acc c => acc ++ String.intercalate ":" (c.map toString) ++ " ") ""

/-- The attribute extraction of BGPPeer.update lines 67-81: when the
"attribute" object is absent the Python locals keep their initial None,
modelled by the same defaults the presence checks produce (this conflates
None with the empty-value defaults; no downstream code of the claims
distinguishes them).  Returns (origin, as_path, med, communities,
atomic_aggregate). -/
def extractAttrs (m : Option UpdateAttribute) :
    String × List (List Nat) × Option Int × String × Option Bool :=
  match m with
  | none => ("", [], none, "", none)
  | some attr =>
      (attr.origin.getD "", attr.as_path.getD [], attr.med,
       communityStr (attr.community.getD []), attr.atomic_aggregate)

/-- The inner loop of the announce branch of BGPPeer.update (lines 86-98):
for each (next-hop, prefix) pair construct a BGPRoute, add_route it into the
input table, and append `{'announce': announce_route}` — the function
object, due to the variable-name slip — to the change list. -/
def announceLoop (neighbor : String)
    (attrs : String × List (List Nat) × Option Int × String × Option Bool)
    (m : List (String × List String)) (st : RIBState) (acc : List Change) :
    RIBState × List Change :=
  m.foldl
    (fun s nhEntry =>
      nhEntry.2.foldl
        (fun s p =>
          let announced_route : BGPRoute :=
            ⟨p, neighbor, nhEntry.1, attrs.1, attrs.2.1, attrs.2.2.2.1,
             attrs.2.2.1, attrs.2.2.2.2⟩
          ((add_route s.1 TableName.input announced_route).st,
           s.2 ++ [Change.announce ChangePayload.announceRouteFn]))
        s)
    (st, acc)

/-- The withdraw branch of BGPPeer.update (lines 103-107): for each withdrawn
prefix, look up the input row for (prefix, neighbor); when present, delete it
and append a withdraw change carrying the deleted route; when absent, do
nothing. -/
def withdrawLoop (neighbor : String) (ps : List String) (st : RIBState)
    (acc : List Change) : RIBState × List Change :=
  ps.foldl
    (fun s p =>
      match (get_routes_one s.1 TableName.input (pfxNbrFilter p neighbor)).ret with
      | some deleted_route =>
          ((delete_route s.1 TableName.input (pfxNbrFilter p neighbor)).st,
           s.2 ++ [Change.withdraw deleted_route])
      | none => s)
    (st, acc)

/-- BGPPeer.update: translate one inbound neighbor event into input-RIB
mutations and a list of change events.  A `.error` value models an uncaught
Python exception. -/
def update (ev : NeighborEvent) (st : RIBState) :
    Except String (List Change × RIBState) :=
  let neighbor := ev.ip
  -- lines 54-64: the session-down block
  let downRes : List Change × RIBState :=
    if ev.state = some "down" then
      let routes := (get_routes_all st TableName.input (nbrFilter neighbor)).ret
      let route_list := routes.map Change.withdraw
      let st1 := (delete_all_routes st TableName.input).st
      let st2 := (delete_all_routes st1 TableName.localT).st
      let st3 := (delete_all_routes st2 TableName.output).st
      (route_list, st3)
    else ([], st)
  let route_list := downRes.1
  let st0 := downRes.2
  -- line 66 reads route["neighbor"]["message"] unconditionally: a neighbor
  -- object without a "message" key raises KeyError here.
  match ev.message with
  | none => Except.error "KeyError: message"
  | some none => Except.ok (route_list, st0)
  | some (some upd) =>
      let attrs := extractAttrs upd.attr
      match upd.announce with
      | some (some m) =>
          let res := announceLoop neighbor attrs m st0 route_list
          Except.ok (res.2, res.1)
      | some none => Except.ok (route_list, st0)
      | none =>
          match upd.withdraw with
          | some (some ps) =>
              let res := withdrawLoop neighbor ps st0 route_list
              Except.ok (res.2, res.1)
          | some none => Except.ok (route_list, st0)
          | none => Except.ok (route_list, st0)

/-- BGPPeer.decision_process: recompute the best route of the change's
prefix and update the local table.  On an announce change whose payload is
the function object (what BGPPeer.update actually emits), reading
`update['announce'].prefix` raises AttributeError, modelled by `.error`. -/
def decision_process (u : Change) (st : RIBState) : Except String RIBState :=
  match u with
  | Change.announce ChangePayload.announceRouteFn =>
      Except.error "AttributeError: function object has no attribute prefix"
  | Change.announce (ChangePayload.route announce_rt) =>
      let p := announce_rt.pfx
      let current_best_route :=
        (get_routes_one st TableName.localT (pfxFilter p)).ret
      let new_best_route : Option BGPRoute :=
        match current_best_route with
        | some cur =>
            if routeGTb announce_rt cur then some announce_rt
            else if routeLTb announce_rt cur && announce_rt.neighbor == cur.neighbor
            then
              -- full re-scan: the input rows of the prefix, plus the
              -- announced route appended once more (line 146), sorted
              -- descending; routes[0] is the head (the list is non-empty).
              (sortDesc
                ((get_routes_all st TableName.input (pfxFilter p)).ret
                  ++ [announce_rt])).head?
            else none
        | none => some announce_rt
      match new_best_route with
      | some nbr => Except.ok (update_route st TableName.localT nbr).st
      | none => Except.ok st
  | Change.withdraw deleted_route =>
      let p := deleted_route.pfx
      let current_best_route :=
        (get_routes_one st TableName.localT (pfxFilter p)).ret
      match current_best_route with
      | some cur =>
          if deleted_route.neighbor == cur.neighbor then
            let st1 := (delete_route st TableName.localT (pfxFilter p)).st
            let routes := (get_routes_all st1 TableName.input (pfxFilter p)).ret
            if routes.isEmpty then Except.ok st1
            else
              match (sortDesc routes).head? with
              | some best_route =>
                  Except.ok (update_route st1 TableName.localT best_route).st
              | none => Except.ok st1
          else
            -- "no impact on best path": log only
            Except.ok st
      | none =>
          -- "Withdraw received for a prefix which wasn't even in the local
          -- table": log only
          Except.ok st

/-- A forwarding-equivalence-class record, as stored in prefix_2_FEC; only
its virtual next-hop field is read by the engine. -/
structure FEC where
  vnh : String
deriving DecidableEq

/-- A router port of the participant; only its "IP" field is read. -/
structure Port where
  IP : String
deriving DecidableEq

/-- Lookup in a Python dict modelled as an association list; `none` models a
KeyError on subscription. -/
def lookupAssoc {α : Type} (m : List (String × α)) (k : String) : Option α :=
  (m.find? (fun e => e.1 = k)).map (fun e => e.2)

/-- The module-level helper announce_route of peer.py: builds the textual
announce command (the Python repr of an AS-path segment list is modelled by
Lean's toString). -/
def announce_route (neighbor p vnh : String) (as_path : List (List Nat)) : String :=
  "neighbor " ++ neighbor ++ " announce route " ++ p ++ " next-hop " ++ vnh ++
  " as-path [ ( " ++ String.intercalate " " (as_path.map toString) ++ " ) ]"

/-- The module-level helper withdraw_route of peer.py: builds the textual
withdraw command. -/
def withdraw_route (neighbor p next_hop : String) : String :=
  "neighbor " ++ neighbor ++ " withdraw route " ++ p ++ " next-hop " ++ next_hop

/-- The accumulator of one bgp_update_peers pass: the table state, the
new_FECs list and the announcements list being built. -/
structure PropAcc where
  st : RIBState
  new_FECs : List FEC
  announcements : List String
deriving DecidableEq

/-- One iteration of the loop of BGPPeer.bgp_update_peers (lines 181-237).
`.error` models an uncaught Python exception aborting the whole batch. -/
def propagateOne (prefix_2_VNH_nrfp : List (String × String))
    (prefix_2_FEC : List (String × FEC)) (VNH_2_vmac : List (String × String))
    (ports selfPorts : List Port) (acc : PropAcc) (u : Change) :
    Except String PropAcc := do
  let p ←
    match u with
    | Change.announce (ChangePayload.route r) => pure r.pfx
    | Change.announce ChangePayload.announceRouteFn =>
        -- update['announce'].prefix on the function object
        Except.error "AttributeError: function object has no attribute prefix"
    | Change.withdraw r => pure r.pfx
  let prev_route := (get_routes_one acc.st TableName.output (pfxFilter p)).ret
  let best_route := (get_routes_one acc.st TableName.localT (pfxFilter p)).ret
  -- lines 190-193: on a miss, sleep(.1) and read once more; in this
  -- sequential embedding the second read sees the same state.
  let best_route :=
    match best_route with
    | none => (get_routes_one acc.st TableName.localT (pfxFilter p)).ret
    | some r => some r
  -- line 195: assert(best_route is None) — in this embedding an absent row
  -- is exactly `none`, so the assertion never fires.
  match u with
  | Change.withdraw _ =>
      match best_route with
      | some br => do
          let st1 := (update_route acc.st TableName.output br).st
          let fec ←
            match lookupAssoc prefix_2_FEC p with
            | some fec => pure fec
            | none => Except.error "KeyError: prefix_2_FEC"
          let fecs :=
            if (lookupAssoc VNH_2_vmac fec.vnh).isNone then acc.new_FECs ++ [fec]
            else acc.new_FECs
          let msgs :=
            ports.map (fun port => announce_route port.IP p fec.vnh br.as_path)
          pure ⟨st1, fecs, acc.announcements ++ msgs⟩
      | none =>
          if prev_route.isSome then do
            let st1 := (delete_route acc.st TableName.output (pfxFilter p)).st
            let nh ←
              match lookupAssoc prefix_2_VNH_nrfp p with
              | some nh => pure nh
              | none => Except.error "KeyError: prefix_2_VNH_nrfp"
            -- line 233 iterates self.ports, not the ports argument
            let msgs := selfPorts.map (fun port => withdraw_route port.IP p nh)
            pure ⟨st1, acc.new_FECs, acc.announcements ++ msgs⟩
          else pure acc
  | Change.announce _ =>
      -- line 201 unconditionally stores best_route in the output table;
      -- update_route reads bgp_route.prefix, so a missing best route (None)
      -- raises AttributeError before the error-log-and-skip branch below is
      -- ever reached.
      match best_route with
      | none => Except.error "AttributeError: NoneType object has no attribute prefix"
      | some br => do
          let st1 := (update_route acc.st TableName.output br).st
          let fec ←
            match lookupAssoc prefix_2_FEC p with
            | some fec => pure fec
            | none => Except.error "KeyError: prefix_2_FEC"
          let fecs :=
            if (lookupAssoc VNH_2_vmac fec.vnh).isNone then acc.new_FECs ++ [fec]
            else acc.new_FECs
          -- line 205: `if best_route:` — necessarily true here; the else
          -- branch (logger.error("Race condition problem...") and continue)
          -- is dead code.
          let msgs :=
            ports.map (fun port => announce_route port.IP p fec.vnh br.as_path)
          pure ⟨st1, fecs, acc.announcements ++ msgs⟩

/-- BGPPeer.bgp_update_peers: process a batch of decided changes, refreshing
the output table and accumulating (new_FECs, announcements). -/
def bgp_update_peers (st : RIBState) (updates : List Change)
    (prefix_2_VNH_nrfp : List (String × String))
    (prefix_2_FEC : List (String × FEC)) (VNH_2_vmac : List (String × String))
    (ports selfPorts : List Port) :
    Except String (List FEC × List String × RIBState) := do
  let acc ← updates.foldlM
    (propagateOne prefix_2_VNH_nrfp prefix_2_FEC VNH_2_vmac ports selfPorts)
    ⟨st, [], []⟩
  pure (acc.new_FECs, acc.announcements, acc.st)

/-- Observer: the current best route of a prefix, i.e. the row of the local
table with that prefix, read the way BGPPeer reads it. -/
def localBest (st : RIBState) (p : String) : Option BGPRoute :=
  (get_routes_one st TableName.localT (pfxFilter p)).ret

/-- Observer: the input-RIB rows currently present for a prefix, read the
way BGPPeer reads them. -/
def inputRows (st : RIBState) (p : String) : List BGPRoute :=
  (get_routes_all st TableName.input (pfxFilter p)).ret

/-- One step of the announce pipeline for one route: the translator's
input-RIB write (add_route, BGPPeer.update line 96) followed by the decision
process on the corresponding announce change. -/
def announceStep (st : RIBState) (r : BGPRoute) : Except String RIBState :=
  decision_process (Change.announce (ChangePayload.route r))
    (add_route st TableName.input r).st

/-- Sample route: neighbor 172.0.0.1 advertising 140.0.0.0/16 with AS-path
of length two. -/
def sampleRouteA : BGPRoute :=
  ⟨"140.0.0.0/16", "172.0.0.1", "172.0.0.11", "igp", [[100], [200]], "", some 0, none⟩

/-- Sample route: neighbor 172.0.0.2 advertising 140.0.0.0/16 with a shorter
AS-path, hence preferred over sampleRouteA. -/
def sampleRouteB : BGPRoute :=
  ⟨"140.0.0.0/16", "172.0.0.2", "172.0.0.12", "igp", [[50]], "", some 0, none⟩

/-- Sample route: neighbor 172.0.0.3 advertising 150.0.0.0/16. -/
def sampleRouteC : BGPRoute :=
  ⟨"150.0.0.0/16", "172.0.0.3", "172.0.0.13", "egp", [[300]], "", some 10, some false⟩

/-- Sample announce event: neighbor 172.0.0.2 announces 140.0.0.0/16 via
next-hop 172.0.0.12 with origin igp and AS-path [[50]]. -/
def sampleAnnounceEvent : NeighborEvent :=
  ⟨"172.0.0.2", none,
   some (some ⟨some ⟨some "igp", some [[50]], some 0, some [], none⟩,
               some (some [("172.0.0.12", ["140.0.0.0/16"])]), none⟩)⟩

/- ### Properties of the route order -/

theorem routeCmp_eq_lt_iff (a b : BGPRoute) :
    routeCmp a b = Ordering.lt ↔ routeKey a < routeKey b := by
  unfold routeCmp
  split_ifs with h1 h2
  · simp [h1]
  · simp [h1]
  · simp [h1]

theorem routeCmp_eq_gt_iff (a b : BGPRoute) :
    routeCmp a b = Ordering.gt ↔ routeKey b < routeKey a := by
  unfold routeCmp
  split_ifs with h1 h2
  · simp [h1.asymm]
  · simp [h2]
  · simp [h2]

theorem routeGe_iff (a b : BGPRoute) :
    routeGe a b ↔ routeKey b ≤ routeKey a := by
  unfold routeGe
  rw [ne_eq, routeCmp_eq_lt_iff, not_lt]

theorem routeGe_refl (a : BGPRoute) : routeGe a a := by
  rw [routeGe_iff]

instance : IsTotal BGPRoute routeGe :=
  ⟨fun a b => by rw [routeGe_iff, routeGe_iff]; exact le_total _ _⟩

instance : IsTrans BGPRoute routeGe :=
  ⟨fun a b c hab hbc => by
    rw [routeGe_iff] at hab hbc ⊢
    exact le_trans hbc hab⟩

theorem routeGe_of_gt {a b : BGPRoute} (h : routeCmp a b = Ordering.gt) :
    routeGe a b := by
  rw [routeGe_iff]
  exact le_of_lt ((routeCmp_eq_gt_iff a b).mp h)

theorem routeGe_of_not_gt {a b : BGPRoute} (h : ¬ routeCmp a b = Ordering.gt) :
    routeGe b a := by
  rw [routeGe_iff]
  rw [routeCmp_eq_gt_iff] at h
  exact not_lt.mp h

theorem routeGe_trans (a b c : BGPRoute) (hab : routeGe a b) (hbc : routeGe b c) :
    routeGe a c := by
  rw [routeGe_iff] at hab hbc ⊢
  exact le_trans hbc hab

theorem routeGTb_eq_true_iff (a b : BGPRoute) :
    routeGTb a b = true ↔ routeCmp a b = Ordering.gt := by
  simp [routeGTb]

theorem routeGTb_eq_false_iff (a b : BGPRoute) :
    routeGTb a b = false ↔ ¬ routeCmp a b = Ordering.gt := by
  simp [routeGTb]

/- ### Properties of the descending sort -/

theorem sortDesc_perm (l : List BGPRoute) : List.Perm (sortDesc l) l :=
  List.perm_insertionSort routeGe l

theorem sortDesc_sorted (l : List BGPRoute) : List.Sorted routeGe (sortDesc l) :=
  List.sorted_insertionSort routeGe l

/-- The head of the descending sort is a member of the list and is preferred
over (or tied with) every member: it is the maximum the source's
`routes.sort(reverse=True); routes[0]` selects. -/
theorem sortDesc_head_max {l : List BGPRoute} {m : BGPRoute}
    (h : (sortDesc l).head? = some m) :
    m ∈ l ∧ ∀ x ∈ l, routeGe m x := by
  have hsort := sortDesc_sorted l
  have hperm := sortDesc_perm l
  cases hs : sortDesc l with
  | nil => rw [hs] at h; cases h
  | cons hd tl =>
      rw [hs] at h
      cases h
      rw [hs] at hsort hperm
      constructor
      · exact hperm.mem_iff.mp (List.mem_cons_self _ _)
      · intro x hx
        have hx2 : x ∈ m :: tl := hperm.mem_iff.mpr hx
        rcases List.mem_cons.mp hx2 with rfl | hx3
        · exact routeGe_refl _
        · exact (List.sorted_cons.mp hsort).1 x hx3

/- ### Table computation helpers -/

theorem matches_pfxFilter (p : String) (r : BGPRoute) :
    Filter.matches (pfxFilter p) r = decide (r.pfx = p) := by
  simp [Filter.matches, pfxFilter]

theorem matches_noFilter (r : BGPRoute) : Filter.matches noFilter r = true := by
  simp [Filter.matches, noFilter]

theorem matches_nbrFilter (n : String) (r : BGPRoute) :
    Filter.matches (nbrFilter n) r = decide (r.neighbor = n) := by
  simp [Filter.matches, nbrFilter]

theorem matches_pfxNbrFilter (p n : String) (r : BGPRoute) :
    Filter.matches (pfxNbrFilter p n) r
      = (decide (r.pfx = p) && decide (r.neighbor = n)) := by
  simp [Filter.matches, pfxNbrFilter]

theorem delete_route_localT_inp (st : RIBState) (f : Filter) :
    (delete_route st TableName.localT f).st.inp = st.inp := rfl

theorem delete_route_localT_out (st : RIBState) (f : Filter) :
    (delete_route st TableName.localT f).st.out = st.out := rfl

theorem update_route_localT_inp (st : RIBState) (r : BGPRoute) :
    (update_route st TableName.localT r).st.inp = st.inp := rfl

theorem update_route_localT_out (st : RIBState) (r : BGPRoute) :
    (update_route st TableName.localT r).st.out = st.out := rfl

theorem localBest_eq (st : RIBState) (p : String) :
    localBest st p = (st.loc.filter (fun r => decide (r.pfx = p))).head? := by
  unfold localBest get_routes_one ribGet
  simp [matches_pfxFilter, RIBState.table]

theorem inputRows_eq (st : RIBState) (p : String) :
    inputRows st p = st.inp.filter (fun r => decide (r.pfx = p)) := by
  unfold inputRows get_routes_all ribGet
  simp [matches_pfxFilter, RIBState.table]

/- ### Claim theorems -/

/-- **C9** (counterexample): the claim states that the bulk delete-all used
on peer-down and shutdown acquires the lock for the reserved global key
before mutating; in fact BGPPeer.delete_all_routes acquires no lock at all —
at the concrete input below its lock trace is empty and does not contain
"global". -/
theorem c9_delete_all_routes_acquires_no_lock :
    (delete_all_routes emptyRIB TableName.input).locks = [] ∧
      "global" ∉ (delete_all_routes emptyRIB TableName.input).locks := by
  exact ⟨rfl, by simp [delete_all_routes]⟩

/-- **C9** (amended): every single-route mutation (add_route, update_route)
acquires exactly the lock of the route's prefix; every keyed read or delete
(get_routes, delete_route) acquires exactly the lock of the kwargs prefix,
falling back to the reserved key "global" when no prefix is given; but the
bulk delete_all_routes used on peer-down and shutdown acquires no lock at
all. -/
theorem c9_locking_discipline (st : RIBState) (t : TableName) (r : BGPRoute)
    (f : Filter) (p : String) :
    (add_route st t r).locks = [r.pfx] ∧
    (update_route st t r).locks = [r.pfx] ∧
    (get_routes_all st t f).locks = [lockKey f] ∧
    (get_routes_one st t f).locks = [lockKey f] ∧
    (delete_route st t f).locks = [lockKey f] ∧
    (delete_all_routes st t).locks = [] ∧
    lockKey (pfxFilter p) = p ∧
    lockKey noFilter = "global" :=
  ⟨rfl, rfl, rfl, rfl, rfl, rfl, rfl, rfl⟩

/-- **C10**: for every change event, decision_process writes only the local
table: whenever it returns, the input table and the output table are exactly
what they were before. -/
theorem c10_decision_process_touches_only_local (u : Change) (st st2 : RIBState)
    (h : decision_process u st = Except.ok st2) :
    st2.inp = st.inp ∧ st2.out = st.out := by
  cases u with
  | announce pl =>
      cases pl with
      | announceRouteFn => simp [decision_process] at h
      | route r =>
          rcases hcur : (get_routes_one st TableName.localT (pfxFilter r.pfx)).ret
            with _ | cur
          · simp only [decision_process, hcur] at h
            cases h
            exact ⟨update_route_localT_inp _ _, update_route_localT_out _ _⟩
          · simp only [decision_process, hcur] at h
            cases hgt : routeGTb r cur with
            | true =>
                simp only [hgt, if_pos] at h
                cases h
                exact ⟨update_route_localT_inp _ _, update_route_localT_out _ _⟩
            | false =>
                simp only [hgt, Bool.false_eq_true, if_false] at h
                cases hlt : (routeLTb r cur && (r.neighbor == cur.neighbor)) with
                | false =>
                    simp only [hlt, Bool.false_eq_true, if_false] at h
                    cases h
                    exact ⟨rfl, rfl⟩
                | true =>
                    simp only [hlt, if_pos] at h
                    rcases hhd :
                        (sortDesc
                          ((get_routes_all st TableName.input
                            (pfxFilter r.pfx)).ret ++ [r])).head? with _ | m
                    · simp only [hhd] at h
                      cases h
                      exact ⟨rfl, rfl⟩
                    · simp only [hhd] at h
                      cases h
                      exact ⟨update_route_localT_inp _ _, update_route_localT_out _ _⟩
  | withdraw r =>
      rcases hcur : (get_routes_one st TableName.localT (pfxFilter r.pfx)).ret
        with _ | cur
      · simp only [decision_process, hcur] at h
        cases h
        exact ⟨rfl, rfl⟩
      · simp only [decision_process, hcur] at h
        cases hnb : (r.neighbor == cur.neighbor) with
        | false =>
            simp only [hnb, Bool.false_eq_true, if_false] at h
            cases h
            exact ⟨rfl, rfl⟩
        | true =>
            simp only [hnb, if_pos] at h
            cases hemp :
                ((get_routes_all (delete_route st TableName.localT
                  (pfxFilter r.pfx)).st TableName.input (pfxFilter r.pfx)).ret).isEmpty with
            | true =>
                simp only [hemp, if_pos] at h
                cases h
                exact ⟨delete_route_localT_inp _ _, delete_route_localT_out _ _⟩
            | false =>
                simp only [hemp, Bool.false_eq_true, if_false] at h
                rcases hhd :
                    (sortDesc
                      ((get_routes_all (delete_route st TableName.localT
                        (pfxFilter r.pfx)).st TableName.input
                        (pfxFilter r.pfx)).ret)).head? with _ | m
                · simp only [hhd] at h
                  cases h
                  exact ⟨delete_route_localT_inp _ _, delete_route_localT_out _ _⟩
                · simp only [hhd] at h
                  cases h
                  refine ⟨?_, ?_⟩
                  · rw [update_route_localT_inp, delete_route_localT_inp]
                  · rw [update_route_localT_out, delete_route_localT_out]

/-- **C10** (witness): the theorem applied to a concrete withdraw change on
the empty state. -/
theorem c10_witness :
    emptyRIB.inp = emptyRIB.inp ∧ emptyRIB.out = emptyRIB.out :=
  c10_decision_process_touches_only_local (Change.withdraw sampleRouteA)
    emptyRIB emptyRIB (by rfl)

/-- **C7**: a withdraw change whose route's neighbor differs from the
neighbor of the current best route of that prefix leaves the state (in
particular local[prefix]) unchanged. -/
theorem c7_nonbest_withdraw_no_impact (st : RIBState) (r cur : BGPRoute)
    (hb : localBest st r.pfx = some cur) (hn : r.neighbor ≠ cur.neighbor) :
    decision_process (Change.withdraw r) st = Except.ok st := by
  unfold localBest at hb
  simp only [decision_process, hb]
  simp [hn]

/-- **C7** (witness): withdrawing sampleRouteA while sampleRouteB (another
neighbor) is the best route of the prefix changes nothing. -/
theorem c7_witness :
    decision_process (Change.withdraw sampleRouteA)
        ⟨[sampleRouteB], [sampleRouteB], []⟩
      = Except.ok ⟨[sampleRouteB], [sampleRouteB], []⟩ :=
  c7_nonbest_withdraw_no_impact ⟨[sampleRouteB], [sampleRouteB], []⟩
    sampleRouteA sampleRouteB (by rfl) (by decide)

/-- **C5** (counterexample): not every peer-down event leaves the three
tables empty.  A down event for neighbor 172.0.0.1 that also carries an
announce payload first withdraws the neighbor's row and clears the tables,
but then the announce loop runs and re-populates the input table: update()
returns with input = [the announced route] ≠ [], so the final state differs
from the all-empty one the claim requires.  (The other escape, a down event
with no message key at all, raises KeyError instead of returning — that
shape is C8's failing input.) -/
theorem c5_down_with_announce_counterexample :
    update
        ⟨"172.0.0.1", some "down",
         some (some ⟨none, some (some [("10.0.0.9", ["150.0.0.0/16"])]), none⟩)⟩
        ⟨[sampleRouteA], [sampleRouteA], []⟩
      = Except.ok
          ([Change.withdraw sampleRouteA,
            Change.announce ChangePayload.announceRouteFn],
           ⟨[⟨"150.0.0.0/16", "172.0.0.1", "10.0.0.9", "", [], "", none, none⟩],
            [], []⟩) ∧
    (⟨[⟨"150.0.0.0/16", "172.0.0.1", "10.0.0.9", "", [], "", none, none⟩],
      [], []⟩ : RIBState) ≠ emptyRIB :=
  ⟨rfl, by decide⟩

/-- **C5** (amended): a peer-down event for neighbor n whose neighbor object
carries a message without an update payload — the only down-event shape that
update() processes to completion without re-populating the tables — returns
exactly one withdraw change per input-RIB row previously present for n, and
leaves all three tables empty. -/
theorem c5_peer_down_clears_everything (st : RIBState) (n : String) :
    update ⟨n, some "down", some none⟩ st =
      Except.ok
        (((get_routes_all st TableName.input (nbrFilter n)).ret).map
          Change.withdraw, emptyRIB) := by
  simp [update, delete_all_routes, ribCommit, ribDelete, RIBState.setTable,
    RIBState.table, matches_noFilter, emptyRIB]

/-- **C6**: a withdrawal event for a (prefix, neighbor) pair with no row in
the input RIB emits no change and leaves the state (all three tables)
unchanged. -/
theorem c6_idempotent_withdrawal (st : RIBState) (n p : String)
    (attrs : Option UpdateAttribute)
    (hno : (get_routes_one st TableName.input (pfxNbrFilter p n)).ret = none) :
    update ⟨n, none, some (some ⟨attrs, none, some (some [p])⟩)⟩ st =
      Except.ok ([], st) := by
  simp [update, withdrawLoop, hno]

/-- **C6** (witness): withdrawing 140.0.0.0/16 from neighbor 172.0.0.1 while
the input RIB only holds sampleRouteC (a different prefix and neighbor) is a
no-op. -/
theorem c6_witness :
    (get_routes_one ⟨[sampleRouteC], [], []⟩ TableName.input
        (pfxNbrFilter "140.0.0.0/16" "172.0.0.1")).ret = none ∧
    update ⟨"172.0.0.1", none,
        some (some ⟨none, none, some (some ["140.0.0.0/16"])⟩)⟩
        ⟨[sampleRouteC], [], []⟩
      = Except.ok ([], ⟨[sampleRouteC], [], []⟩) :=
  ⟨rfl, c6_idempotent_withdrawal ⟨[sampleRouteC], [], []⟩ "172.0.0.1"
    "140.0.0.0/16" none rfl⟩

/-- **C1** (code bug): on a concrete announce event the constructed route is
written into the input RIB, but the emitted change's payload is the
module-level function object announce_route (the source appends the
misspelled name `announce_route` instead of the local `announced_route`),
not the constructed Route. -/
theorem c1_announce_change_payload_is_function_object :
    update sampleAnnounceEvent emptyRIB =
      Except.ok ([Change.announce ChangePayload.announceRouteFn],
        ⟨[sampleRouteB], [], []⟩) ∧
    Change.announce ChangePayload.announceRouteFn ≠
      Change.announce (ChangePayload.route sampleRouteB) :=
  ⟨rfl, by decide⟩

/-- **C2** (code bug): a batch whose first change is announce-tagged for a
prefix with no best route in the local table does not log-and-skip: line 201
passes the absent best route (None) to update_route, whose attribute access
raises AttributeError, aborting the whole batch (the second change is never
processed). -/
theorem c2_propagation_race_raises_instead_of_skipping :
    bgp_update_peers emptyRIB
        [Change.announce (ChangePayload.route sampleRouteB),
         Change.withdraw sampleRouteC]
        [] [("140.0.0.0/16", ⟨"VNH1"⟩)] [] [⟨"10.0.0.1"⟩] [⟨"10.0.0.1"⟩]
      = Except.error "AttributeError: NoneType object has no attribute prefix" :=
  rfl

/-- **C8** (code bug): a session-down event whose neighbor object has no
message key at all makes update() raise KeyError (line 66 reads
route["neighbor"]["message"] unconditionally) instead of returning the
withdraw changes: the absent payload is not tolerated. -/
theorem c8_down_event_without_message_raises (st : RIBState) :
    update ⟨"172.0.0.9", some "down", none⟩ st
      = Except.error "KeyError: message" := rfl

/-- **C4**: on a withdraw change whose route's neighbor equals the current
best route's neighbor for the prefix, the local entry is deleted and: if no
input-RIB row for the prefix remains, local[prefix] is absent afterwards; if
some remain, local[prefix] is the maximum of the remaining rows by the route
order (a remaining row that every remaining row is outranked by or tied
with). -/
theorem c4_withdraw_reelection (st : RIBState) (r b : BGPRoute)
    (hb : localBest st r.pfx = some b) (hn : r.neighbor = b.neighbor) :
    ∃ st2, decision_process (Change.withdraw r) st = Except.ok st2 ∧
      (inputRows st r.pfx = [] → localBest st2 r.pfx = none) ∧
      (inputRows st r.pfx ≠ [] →
        ∃ m, localBest st2 r.pfx = some m ∧ m ∈ inputRows st r.pfx ∧
          ∀ x ∈ inputRows st r.pfx, routeGe m x) := by
  unfold localBest at hb
  have hroutes : (get_routes_all (delete_route st TableName.localT
      (pfxFilter r.pfx)).st TableName.input (pfxFilter r.pfx)).ret
      = inputRows st r.pfx := rfl
  have hdel : (delete_route st TableName.localT (pfxFilter r.pfx)).st.loc
      = st.loc.filter (fun x => !(Filter.matches (pfxFilter r.pfx) x)) := rfl
  have hself : ((delete_route st TableName.localT
      (pfxFilter r.pfx)).st.loc.filter (fun x => decide (x.pfx = r.pfx))) = [] := by
    rw [hdel]
    refine List.filter_eq_nil_iff.mpr ?_
    intro a ha
    have ha2 := (List.mem_filter.mp ha).2
    rw [matches_pfxFilter] at ha2
    simp at ha2 ⊢
    exact ha2
  rcases hlist : inputRows st r.pfx with _ | ⟨r0, rest⟩
  · -- no input rows remain: the local entry is deleted and nothing reinstalled
    refine ⟨(delete_route st TableName.localT (pfxFilter r.pfx)).st, ?_, ?_, ?_⟩
    · simp only [decision_process, hb, hn, beq_self_eq_true, if_true,
        hroutes, hlist, List.isEmpty_nil, if_pos]
    · intro _
      rw [localBest_eq, hself]
      rfl
    · intro hne
      exact absurd rfl hne
  · -- rows remain: the head of the descending sort is reinstalled
    have hsd : ∃ m tl, sortDesc (r0 :: rest) = m :: tl := by
      cases hsl : sortDesc (r0 :: rest) with
      | nil =>
          have := (sortDesc_perm (r0 :: rest)).length_eq
          rw [hsl] at this
          simp at this
      | cons m tl => exact ⟨m, tl, rfl⟩
    obtain ⟨m, tl, hsl⟩ := hsd
    have hhead : (sortDesc (r0 :: rest)).head? = some m := by rw [hsl]; rfl
    have hmax := sortDesc_head_max hhead
    refine ⟨(update_route (delete_route st TableName.localT
      (pfxFilter r.pfx)).st TableName.localT m).st, ?_, ?_, ?_⟩
    · simp only [decision_process, hb, hn, beq_self_eq_true, if_true,
        hroutes, hlist, List.isEmpty_cons, Bool.false_eq_true, if_false,
        hhead]
    · intro habs
      exact absurd habs (List.cons_ne_nil _ _)
    · intro _
      have hmp : m.pfx = r.pfx := by
        have hm1 : m ∈ inputRows st r.pfx := by rw [hlist]; exact hmax.1
        rw [inputRows_eq] at hm1
        have := (List.mem_filter.mp hm1).2
        simpa using this
      refine ⟨m, ?_, hmax.1, hmax.2⟩
      rw [localBest_eq]
      have hloc2 : (update_route (delete_route st TableName.localT
          (pfxFilter r.pfx)).st TableName.localT m).st.loc
          = ((delete_route st TableName.localT (pfxFilter r.pfx)).st.loc.filter
              (fun x => !(pkEq TableName.localT x m))) ++ [m] := rfl
      rw [hloc2, List.filter_append]
      have h1 : (((delete_route st TableName.localT (pfxFilter r.pfx)).st.loc.filter
          (fun x => !(pkEq TableName.localT x m))).filter
            (fun x => decide (x.pfx = r.pfx))) = [] := by
        refine List.filter_eq_nil_iff.mpr ?_
        intro a ha
        have ha3 : a ∈ (delete_route st TableName.localT
            (pfxFilter r.pfx)).st.loc := (List.mem_filter.mp ha).1
        intro hq
        have hmem : a ∈ ((delete_route st TableName.localT
            (pfxFilter r.pfx)).st.loc.filter (fun x => decide (x.pfx = r.pfx))) :=
          List.mem_filter.mpr ⟨ha3, hq⟩
        rw [hself] at hmem
        cases hmem
      rw [h1]
      simp [hmp]

/-- **C4** (witness): the theorem applied to the state where sampleRouteB is
the best route and sampleRouteA is the one remaining input row: the
withdrawal of sampleRouteB re-elects sampleRouteA. -/
theorem c4_witness :
    localBest ⟨[sampleRouteA], [sampleRouteB], []⟩ sampleRouteB.pfx
        = some sampleRouteB ∧
    (∃ st2, decision_process (Change.withdraw sampleRouteB)
          ⟨[sampleRouteA], [sampleRouteB], []⟩ = Except.ok st2 ∧
        (inputRows ⟨[sampleRouteA], [sampleRouteB], []⟩ sampleRouteB.pfx = [] →
          localBest st2 sampleRouteB.pfx = none) ∧
        (inputRows ⟨[sampleRouteA], [sampleRouteB], []⟩ sampleRouteB.pfx ≠ [] →
          ∃ m, localBest st2 sampleRouteB.pfx = some m ∧
            m ∈ inputRows ⟨[sampleRouteA], [sampleRouteB], []⟩ sampleRouteB.pfx ∧
            ∀ x ∈ inputRows ⟨[sampleRouteA], [sampleRouteB], []⟩ sampleRouteB.pfx,
              routeGe m x)) :=
  ⟨rfl, c4_withdraw_reelection ⟨[sampleRouteA], [sampleRouteB], []⟩
    sampleRouteB sampleRouteB rfl rfl⟩

/- ### Helper facts for the announce pipeline (C3) -/

theorem add_route_input_loc (st : RIBState) (r : BGPRoute) :
    (add_route st TableName.input r).st.loc = st.loc := rfl

theorem add_route_input_inp (st : RIBState) (r : BGPRoute) :
    (add_route st TableName.input r).st.inp
      = st.inp.filter (fun x => !(pkEq TableName.input x r)) ++ [r] := rfl

theorem update_route_localT_loc (st : RIBState) (r : BGPRoute) :
    (update_route st TableName.localT r).st.loc
      = st.loc.filter (fun x => !(pkEq TableName.localT x r)) ++ [r] := rfl

theorem pkEq_input (a b : BGPRoute) :
    pkEq TableName.input a b
      = (decide (a.pfx = b.pfx) && decide (a.neighbor = b.neighbor)) := rfl

theorem pkEq_localT (a b : BGPRoute) :
    pkEq TableName.localT a b = decide (a.pfx = b.pfx) := rfl

theorem get_one_localT_ret (st : RIBState) (p : String) :
    (get_routes_one st TableName.localT (pfxFilter p)).ret = localBest st p := rfl

/-- The invariant the announce pipeline maintains: the input table holds
exactly the routes processed so far, and the local table is empty iff
nothing was processed, else holds exactly one row which is a processed route
preferred over (or tied with) every processed route. -/
def announceInv (done : List BGPRoute) (st : RIBState) : Prop :=
  st.inp = done ∧
  ((st.loc = [] ∧ done = []) ∨
    (∃ m, st.loc = [m] ∧ m ∈ done ∧ ∀ x ∈ done, routeGe m x))

theorem c3_aux (p : String) :
    ∀ (rs done : List BGPRoute) (st : RIBState),
      (∀ r ∈ done, r.pfx = p) → (∀ r ∈ rs, r.pfx = p) →
      (((done ++ rs).map BGPRoute.neighbor).Nodup) →
      announceInv done st →
      ∃ st2, rs.foldlM announceStep st = Except.ok st2 ∧
        announceInv (done ++ rs) st2 := by
  intro rs
  induction rs with
  | nil =>
      intro done st hdone _ _ hinv
      exact ⟨st, rfl, by simpa using hinv⟩
  | cons r rest ih =>
      intro done st hdone hrs hnodup hinv
      obtain ⟨hinp, hloc⟩ := hinv
      have hrp : r.pfx = p := hrs r (List.mem_cons_self _ _)
      have hdone' : ∀ x ∈ done ++ [r], x.pfx = p := by
        intro x hx
        rcases List.mem_append.mp hx with hx | hx
        · exact hdone x hx
        · rcases List.mem_singleton.mp hx with rfl
          exact hrp
      have hrest : ∀ x ∈ rest, x.pfx = p := fun x hx =>
        hrs x (List.mem_cons_of_mem _ hx)
      have hnodup' : (((done ++ [r]) ++ rest).map BGPRoute.neighbor).Nodup := by
        rw [List.append_assoc]
        simpa using hnodup
      -- the processed neighbors are all distinct from r's neighbor
      have hfresh : ∀ x ∈ done, x.neighbor ≠ r.neighbor := by
        intro x hx heq
        rw [List.map_append] at hnodup
        have hdisj := (List.nodup_append.mp hnodup).2.2
        have h1 : x.neighbor ∈ done.map BGPRoute.neighbor :=
          List.mem_map_of_mem _ hx
        have h2 : x.neighbor ∈ (r :: rest).map BGPRoute.neighbor := by
          rw [heq]
          exact List.mem_map_of_mem _ (List.mem_cons_self _ _)
        exact hdisj h1 h2
      -- the translator's input write is a pure append
      have hinpAdd : (add_route st TableName.input r).st.inp = done ++ [r] := by
        rw [add_route_input_inp, hinp]
        congr 1
        refine List.filter_eq_self.mpr ?_
        intro x hx
        rw [pkEq_input]
        have := hfresh x hx
        simp [this]
      -- one announce step yields a state satisfying the invariant for done ++ [r]
      have hstep : ∃ st1, announceStep st r = Except.ok st1 ∧
          announceInv (done ++ [r]) st1 := by
        rcases hloc with ⟨hl0, hd0⟩ | ⟨m, hl1, hmdone, hmax⟩
        · -- first route for the prefix: it becomes the best unconditionally
          have hcur : localBest (add_route st TableName.input r).st r.pfx = none := by
            rw [localBest_eq, add_route_input_loc, hl0]
            rfl
          refine ⟨(update_route (add_route st TableName.input r).st
            TableName.localT r).st, ?_, ?_, ?_⟩
          · simp only [announceStep, decision_process, get_one_localT_ret, hcur]
          · rw [update_route_localT_inp, hinpAdd]
          · refine Or.inr ⟨r, ?_, by simp, ?_⟩
            · rw [update_route_localT_loc, add_route_input_loc, hl0]
              rfl
            · intro x hx
              rw [hd0] at hx
              simp at hx
              rw [hx]
              exact routeGe_refl r
        · -- there is a current best m
          have hmp : m.pfx = r.pfx := by
            rw [hdone m hmdone, hrp]
          have hcur : localBest (add_route st TableName.input r).st r.pfx
              = some m := by
            rw [localBest_eq, add_route_input_loc, hl1]
            simp [hmp]
          cases hgt : routeGTb r m with
          | true =>
              -- the new route outranks the current best and replaces it
              refine ⟨(update_route (add_route st TableName.input r).st
                TableName.localT r).st, ?_, ?_, ?_⟩
              · simp only [announceStep, decision_process, get_one_localT_ret,
                  hcur, hgt, if_pos]
              · rw [update_route_localT_inp, hinpAdd]
              · refine Or.inr ⟨r, ?_, by simp, ?_⟩
                · rw [update_route_localT_loc, add_route_input_loc, hl1]
                  simp [pkEq_localT, hmp]
                · intro x hx
                  rcases List.mem_append.mp hx with hx | hx
                  · exact routeGe_trans r m x
                      (routeGe_of_gt ((routeGTb_eq_true_iff r m).mp hgt))
                      (hmax x hx)
                  · rcases List.mem_singleton.mp hx with rfl
                    exact routeGe_refl _
          | false =>
              -- the new route does not outrank the best; since it comes from
              -- a different neighbor, the same-neighbor re-scan is skipped
              -- and the local table is untouched
              have hne : (r.neighbor == m.neighbor) = false := by
                have hmn := hfresh m hmdone
                simp only [beq_eq_false_iff_ne, ne_eq]
                intro hh
                exact hmn hh.symm
              refine ⟨(add_route st TableName.input r).st, ?_, ?_, ?_⟩
              · simp only [announceStep, decision_process, get_one_localT_ret,
                  hcur, hgt, Bool.false_eq_true, if_false, hne,
                  Bool.and_false, if_false]
              · exact hinpAdd
              · refine Or.inr ⟨m, ?_, List.mem_append_left _ hmdone, ?_⟩
                · rw [add_route_input_loc, hl1]
                · intro x hx
                  rcases List.mem_append.mp hx with hx | hx
                  · exact hmax x hx
                  · rcases List.mem_singleton.mp hx with rfl
                    exact routeGe_of_not_gt ((routeGTb_eq_false_iff _ m).mp hgt)
      obtain ⟨st1, hs1, hinv1⟩ := hstep
      obtain ⟨st2, hs2, hinv2⟩ := ih (done ++ [r]) st1 hdone' hrest hnodup' hinv1
      refine ⟨st2, ?_, ?_⟩
      · rw [List.foldlM_cons, hs1]
        exact hs2
      · rw [List.append_assoc] at hinv2
        simpa using hinv2

/-- **C3**: for a fixed prefix, starting from empty tables, after any
sequence of announce events from pairwise-distinct neighbors — each
announced route written to the input RIB by the translator and then passed
to decision_process — local[prefix] is the maximum, by the route order, of
the input-RIB rows currently present for the prefix (a present row that
every present row is outranked by or tied with). -/
theorem c3_best_path_monotonicity (p : String) (rs : List BGPRoute)
    (hp : ∀ r ∈ rs, r.pfx = p)
    (hnodup : (rs.map BGPRoute.neighbor).Nodup) :
    ∃ st2, rs.foldlM announceStep emptyRIB = Except.ok st2 ∧
      (rs = [] → localBest st2 p = none) ∧
      (rs ≠ [] → ∃ m, localBest st2 p = some m ∧ m ∈ inputRows st2 p ∧
        ∀ x ∈ inputRows st2 p, routeGe m x) := by
  have haux := c3_aux p rs [] emptyRIB (by intro r hr; cases hr) hp
    (by simpa using hnodup) ⟨rfl, Or.inl ⟨rfl, rfl⟩⟩
  rw [List.nil_append] at haux
  obtain ⟨st2, hfold, hinv⟩ := haux
  unfold announceInv at hinv
  obtain ⟨hinp, hloc⟩ := hinv
  refine ⟨st2, hfold, ?_, ?_⟩
  · rintro rfl
    rcases hloc with ⟨hl, _⟩ | ⟨m, _, hm, _⟩
    · rw [localBest_eq, hl]
      rfl
    · cases hm
  · intro hne
    rcases hloc with ⟨_, hd⟩ | ⟨m, hl, hm, hmax⟩
    · exact absurd hd hne
    · have hrows : inputRows st2 p = rs := by
        rw [inputRows_eq, hinp]
        refine List.filter_eq_self.mpr ?_
        intro a ha
        simp [hp a ha]
      refine ⟨m, ?_, by rw [hrows]; exact hm, by rw [hrows]; exact hmax⟩
      rw [localBest_eq, hl]
      simp [hp m hm]

/-- **C3** (witness): the theorem applied to the two-announcement sequence
sampleRouteA then sampleRouteB (distinct neighbors, same prefix). -/
theorem c3_witness :
    (∀ r ∈ [sampleRouteA, sampleRouteB], r.pfx = "140.0.0.0/16") ∧
    (([sampleRouteA, sampleRouteB].map BGPRoute.neighbor).Nodup) ∧
    (∃ st2, [sampleRouteA, sampleRouteB].foldlM announceStep emptyRIB
        = Except.ok st2 ∧
      ([sampleRouteA, sampleRouteB] = [] →
        localBest st2 "140.0.0.0/16" = none) ∧
      ([sampleRouteA, sampleRouteB] ≠ [] →
        ∃ m, localBest st2 "140.0.0.0/16" = some m ∧
          m ∈ inputRows st2 "140.0.0.0/16" ∧
          ∀ x ∈ inputRows st2 "140.0.0.0/16", routeGe m x)) :=
  ⟨by decide, by decide,
    c3_best_path_monotonicity "140.0.0.0/16" [sampleRouteA, sampleRouteB]
      (by decide) (by decide)⟩

end SDX
